import Mathlib

/-!
Verification development for the Expand-Image-Formats content script.

The definitions below are a shallow embedding of `src/content/content.js`
(the current revision) and, in the `Exp` namespace, of the experimental
revision `src/content.js` that adds HEIF/HEIC handling.  Browser
capabilities that the script merely calls (FileReader, Image decoding,
canvas PNG encoding, DOM queries) are modelled as explicit environment
fields; the script's own control flow, filtering, renaming and event
construction are translated statement by statement.  Side effects of one
handler invocation (console diagnostics, preventDefault, the suspension
points of the async pipeline, and the final dispatch) are recorded as an
explicit effect trace.
-/

deriving instance DecidableEq for Except

namespace EIF

/-- Test that the first list is an initial segment of the second. -/
def listLeads : List Char → List Char → Bool
  | [], _ => true
  | _ :: _, [] => false
  | a :: as, b :: bs => a == b && listLeads as bs

/-- Model of JS `s.startsWith(t)`. -/
def strStarts (s t : String) : Bool :=
  listLeads t.data s.data

/-- Model of JS `s.endsWith(t)`. -/
def strEnds (s t : String) : Bool :=
  listLeads t.data.reverse s.data.reverse

/-- Backing file of a transfer item (the DOM `File`): name, declared MIME
type and opaque contents. -/
structure JFile where
  name : String
  type : String
  contents : String
deriving DecidableEq, Repr, Inhabited

/-- One entry of a `DataTransferItemList`: `kind`, declared MIME `type`,
and the backing file materialized by `getAsFile()`. -/
structure Item where
  kind : String
  type : String
  file : JFile
deriving DecidableEq, Repr, Inhabited

/-- Per the DOM, `DataTransferItem.getAsFile()` returns the backing file
when the item kind is "file" and null otherwise. -/
def getAsFile (item : Item) : Option JFile :=
  if item.kind = "file" then some item.file else none

/-- A `DataTransfer` object as the script reads it: the ordered item list
plus the two transfer-effect fields. -/
structure DT where
  items : List Item
  dropEffect : String
  effectAllowed : String
deriving DecidableEq, Repr, Inhabited

/-- An incoming event as the handler inspects it.  `dataTransfer` is
present on drop events, `clipboardData` on paste events; element
references are opaque ids. -/
structure EventIn where
  type : String
  isTrusted : Bool
  dataTransfer : Option DT
  clipboardData : Option DT
  clientX : Int
  clientY : Int
  screenX : Int
  screenY : Int
  sourceCapabilities : Nat
  target : Nat
  srcElement : Nat
  currentTarget : Nat
deriving DecidableEq, Repr, Inhabited

/-- A decoded image (`HTMLImageElement` after a successful load).  For an
image element that is not rendered into the page, `width`/`height` are
its intrinsic pixel dimensions. -/
structure Img where
  width : Nat
  height : Nat
deriving DecidableEq, Repr, Inhabited

/-- An encoded blob: its MIME type and the pixel dimensions of the canvas
it was encoded from (the pixel bytes themselves stay opaque). -/
structure Blob where
  type : String
  width : Nat
  height : Nat
deriving DecidableEq, Repr, Inhabited

/-- The `File` built from a converted blob: `new File([pngBlob], newName,
type)`. -/
structure ConvertedFile where
  name : String
  type : String
  blob : Blob
deriving DecidableEq, Repr, Inhabited

/-- The rebuilt `DataTransfer` handed to the synthesized event. -/
structure DTOut where
  files : List ConvertedFile
  dropEffect : String
  effectAllowed : String
deriving DecidableEq, Repr, Inhabited

/-- The synthesized event.  Drop events carry the payload as
`dataTransfer`, paste events as `clipboardData`; `target`/`srcElement`
are forced via `Object.defineProperty`. -/
structure NewEvent where
  type : String
  bubbles : Bool
  cancelable : Bool
  composed : Bool
  clientX : Int
  clientY : Int
  screenX : Int
  screenY : Int
  dataTransfer : Option DTOut
  clipboardData : Option DTOut
  sourceCapabilities : Option Nat
  target : Nat
  srcElement : Nat
  currentTarget : Option Nat
deriving DecidableEq, Repr, Inhabited

/-- Observable side effects of one handler invocation, in program order.
`asyncWork` marks a suspension point of the conversion pipeline (file
read / image decode / image encode). -/
inductive Effect where
  | consoleError : Effect
  | preventDefault : Effect
  | asyncWork : Effect
  | dispatch : NewEvent → Nat → Effect
deriving DecidableEq, Repr, Inhabited

/-- Document state as the script queries it: the page URL, hit testing at
dispatch time, and the focused element at dispatch time. -/
structure DocCtx where
  href : String
  elementFromPoint : Int → Int → Option Nat
  activeElement : Option Nat

/-- Browser capabilities used by the pipeline: `readFile` models
FileReader (file to data URL), `loadImage` models Image decoding (data
URL to a decoded element with intrinsic dimensions), and `sched` is the
completion order the event loop happens to give the batch. -/
structure Env where
  readFile : JFile → Except String String
  loadImage : String → Except String Img
  sched : List Nat

def SUPPORTED_IMAGE_TYPES : List String :=
  ["image/webp", "image/bmp", "image/svg+xml", "image/avif"]

def isGoogleDocs (doc : DocCtx) : Bool :=
  strStarts doc.href "https://docs.google.com/document/"

def shouldSkipFile (doc : DocCtx) (type : String) : Bool :=
  type == "image/avif" && isGoogleDocs doc

/-- Filter of `src/content/content.js`: pushes the backing file of every
file-kind item whose declared type is supported and not excluded by the
Google-Docs AVIF override.  The JS function ends with an unconditional
`event.preventDefault()`; that side effect is emitted by `handleEvent`
below at exactly this point of the control flow. -/
def filterSupportedImages (doc : DocCtx) (items : List Item) : List JFile :=
  items.foldl
    (fun acc item =>
      if item.kind = "file" ∧ SUPPORTED_IMAGE_TYPES.contains item.type = true ∧
          shouldSkipFile doc item.type = false then
        acc ++ [item.file]
      else acc)
    []

/-- Item list selection of `getEventItems`: drop events read
`dataTransfer.items`, paste events read `clipboardData.items`, anything
else yields null. -/
def getEventItems (event : EventIn) : Option (List Item) :=
  if event.type = "drop" then event.dataTransfer.map DT.items
  else if event.type = "paste" then event.clipboardData.map DT.items
  else none

/-- JS `\w`: ASCII letters, digits and underscore. -/
def isWordChar (c : Char) : Bool :=
  c.isAlphanum || c == '_'

/-- List-level model of `name.replace(/\.\w+$/, '.png')`: the regex
matches a final dot followed by one or more word characters running to
the end of the string; on a match that suffix becomes ".png", otherwise
the name is unchanged. -/
def jsReplaceExtPngList (cs : List Char) : List Char :=
  if (cs.reverse.takeWhile isWordChar).length ≠ 0 ∧
      (cs.reverse.drop (cs.reverse.takeWhile isWordChar).length).head? = some '.' then
    (cs.reverse.drop ((cs.reverse.takeWhile isWordChar).length + 1)).reverse ++ ".png".data
  else cs

def jsReplaceExtPng (s : String) : String :=
  String.mk (jsReplaceExtPngList s.data)

/-- Model of `convertImage2PNGBlob`: a fresh canvas is allocated with
`canvas.width = image.width` and `canvas.height = image.height`, the
image is drawn onto it, and the canvas is encoded with
`toBlob(..., 'image/png')`.  The encoded bytes are opaque; the blob
keeps the canvas dimensions and the PNG MIME type. -/
def convertImage2PNGBlob (image : Img) : Blob :=
  { type := "image/png", width := image.width, height := image.height }

/-- Model of the per-file `processFile` closure inside
`convertDataTransfer`: read the file as a data URL, decode it, re-encode
as PNG, and wrap the blob in a new `File` whose name comes from the
extension-replacing regex and whose type is image/png. -/
def processFile (env : Env) (file : JFile) : Except String ConvertedFile :=
  match env.readFile file with
  | Except.error e => Except.error e
  | Except.ok dataURL =>
    match env.loadImage dataURL with
    | Except.error e => Except.error e
    | Except.ok img =>
      Except.ok
        { name := jsReplaceExtPng file.name
          type := "image/png"
          blob := convertImage2PNGBlob img }

/-- Promise.all under a given completion order: the tasks complete in the
order listed in `order`; the first rejection encountered in completion
order rejects the whole batch, and when every completed task succeeded
the results are read back slot-by-slot in input-index order. -/
def promiseAllSched (tasks : List (Except String ConvertedFile)) (order : List Nat) :
    Except String (List ConvertedFile) :=
  match order.findSome?
      (fun i =>
        match tasks.get? i with
        | some (Except.error e) => some e
        | _ => none) with
  | some e => Except.error e
  | none => Except.ok (tasks.filterMap Except.toOption)

/-- `convertDataTransfer` with the scheduler's completion order made
explicit: issue one conversion task per file and await them jointly. -/
def convertDataTransferSched (env : Env) (files : List JFile) (order : List Nat) :
    Except String (List ConvertedFile) :=
  promiseAllSched (files.map (processFile env)) order

def convertDataTransfer (env : Env) (files : List JFile) :
    Except String (List ConvertedFile) :=
  convertDataTransferSched env files (List.range files.length)

/-- Model of `createNewDropEvent`: a fresh DragEvent with bubbling,
cancelability, the original coordinates and capability hint, the new
payload, forced `target`/`srcElement`, and the transfer-effect fields
copied from the original event's dataTransfer.  Reading that field on an
event without one fails (modelled as none; the handler's catch turns it
into a diagnostic). -/
def createNewDropEvent (dataTransfer : DTOut) (originalEvent : EventIn) : Option NewEvent :=
  originalEvent.dataTransfer.map fun odt =>
    { type := "drop"
      bubbles := true
      cancelable := true
      composed := false
      clientX := originalEvent.clientX
      clientY := originalEvent.clientY
      screenX := originalEvent.screenX
      screenY := originalEvent.screenY
      dataTransfer := some
        { dataTransfer with
            dropEffect := odt.dropEffect
            effectAllowed := odt.effectAllowed }
      clipboardData := none
      sourceCapabilities := some originalEvent.sourceCapabilities
      target := originalEvent.target
      srcElement := originalEvent.srcElement
      currentTarget := none }

/-- Model of `createNewPasteEvent`: a fresh ClipboardEvent with bubbling,
cancelability, composed, the new payload as clipboard data with its
transfer-effect fields reset, and forced identity fields. -/
def createNewPasteEvent (dataTransfer : DTOut) (originalEvent : EventIn) : NewEvent :=
  { type := "paste"
    bubbles := true
    cancelable := true
    composed := true
    clientX := 0
    clientY := 0
    screenX := 0
    screenY := 0
    dataTransfer := none
    clipboardData := some
      { dataTransfer with
          dropEffect := "none"
          effectAllowed := "uninitialized" }
    sourceCapabilities := none
    target := originalEvent.target
    srcElement := originalEvent.srcElement
    currentTarget := some originalEvent.currentTarget }

def createNewEvent (dataTransfer : DTOut) (originalEvent : EventIn) : Option NewEvent :=
  if originalEvent.type = "drop" then createNewDropEvent dataTransfer originalEvent
  else if originalEvent.type = "paste" then some (createNewPasteEvent dataTransfer originalEvent)
  else none

/-- Target resolution of `getTargetElement`, evaluated against the
document state at dispatch time. -/
def getTargetElement (doc : DocCtx) (event : NewEvent) : Option Nat :=
  if event.type = "drop" then doc.elementFromPoint event.clientX event.clientY
  else if event.type = "paste" then doc.activeElement
  else none

def dispatchNewEvent (doc : DocCtx) (event : NewEvent) : List Effect :=
  match getTargetElement doc event with
  | none => [Effect.consoleError]
  | some t => [Effect.dispatch event t]

def triggerEvent (doc : DocCtx) (dataTransfer : DTOut) (originalEvent : EventIn) :
    List Effect :=
  match createNewEvent dataTransfer originalEvent with
  | none => [Effect.consoleError]
  | some newEvent => dispatchNewEvent doc newEvent

/-- One `asyncWork` marker per issued conversion task. -/
def asyncFx (files : List JFile) : List Effect :=
  files.map fun _ => Effect.asyncWork

/-- Effect trace of one invocation of `handleEvent` from
`src/content/content.js`.  Control flow follows the source line by line:
the isTrusted guard, the paste-without-clipboard guard, item retrieval,
filtering (whose unconditional `event.preventDefault()` is emitted right
where the source calls it, before the length test), then the awaited
conversion and the dispatch, with every failure caught as a console
diagnostic.  The source binds the filter result once as `imageFiles`;
the pure call is inlined here. -/
def handleEvent (env : Env) (doc : DocCtx) (event : EventIn) : List Effect :=
  if event.isTrusted = false then []
  else if event.type = "paste" ∧ event.clipboardData = none then [Effect.consoleError]
  else
    match getEventItems event with
    | none => [Effect.consoleError]
    | some items =>
      if (filterSupportedImages doc items).isEmpty then [Effect.preventDefault]
      else
        Effect.preventDefault ::
          (asyncFx (filterSupportedImages doc items) ++
            match convertDataTransferSched env (filterSupportedImages doc items) env.sched with
            | Except.error _ => [Effect.consoleError]
            | Except.ok converted =>
              triggerEvent doc
                { files := converted, dropEffect := "none", effectAllowed := "none" }
                event)

def fileOfConverted (c : ConvertedFile) : JFile :=
  { name := c.name, type := c.type, contents := "" }

def dtInOfOut (dt : DTOut) : DT :=
  { items := dt.files.map fun c =>
      { kind := "file", type := c.type, file := fileOfConverted c }
    dropEffect := dt.dropEffect
    effectAllowed := dt.effectAllowed }

/-- The synthesized event as it would re-enter the handler.  Per the DOM,
an event dispatched from script via `dispatchEvent` always has
`isTrusted = false`; everything else is carried over. -/
def toEventIn (e : NewEvent) : EventIn :=
  { type := e.type
    isTrusted := false
    dataTransfer := e.dataTransfer.map dtInOfOut
    clipboardData := e.clipboardData.map dtInOfOut
    clientX := e.clientX
    clientY := e.clientY
    screenX := e.screenX
    screenY := e.screenY
    sourceCapabilities := e.sourceCapabilities.getD 0
    target := e.target
    srcElement := e.srcElement
    currentTarget := e.currentTarget.getD 0 }

namespace Exp

/-- Supported declared MIME types of the experimental revision
`src/content.js`, which also lists the two HEIF family types. -/
def supportedImageTypes : List String :=
  ["image/webp", "image/bmp", "image/svg+xml", "image/avif",
    "image/heif", "image/heic"]

/-- Truthiness test `file.name && (file.name.endsWith('.heif') ||
file.name.endsWith('.heic'))` of the suffix fallback branch. -/
def heifName (f : JFile) : Bool :=
  f.name != "" && (strEnds f.name ".heif" || strEnds f.name ".heic")

/-- Classifier loop of the experimental `handleEvent` in `src/content.js`
(lines 42-56).  Each iteration first materializes `getAsFile()` and logs
`file.name`; on a non-file item the file is null and that access throws,
aborting the whole handler (modelled as an error).  A file-kind item with
a supported declared type is pushed unless it is AVIF on the Google-Docs
surface (the `continue`); otherwise the suffix fallback pushes files
named `.heif`/`.heic`. -/
def filterLoop (docsHost : Bool) : List Item → Except Unit (List JFile)
  | [] => Except.ok []
  | item :: rest =>
    match getAsFile item with
    | none => Except.error ()
    | some f =>
      if item.kind = "file" ∧ supportedImageTypes.contains item.type = true then
        if item.type = "image/avif" ∧ docsHost = true then filterLoop docsHost rest
        else (filterLoop docsHost rest).map fun l => f :: l
      else if heifName f = true then (filterLoop docsHost rest).map fun l => f :: l
      else filterLoop docsHost rest

end Exp

/-- Modelled from the claim words, for comparison with the code: the
candidate set as C6 states it, namely the ordered sublist of file-kind
items whose declared type is one of the four supported types (minus AVIF
on the Google-Docs surface), together with file items whose name ends in
`.heif` or `.heic`. -/
def claimCandidates (docsHost : Bool) (items : List Item) : List JFile :=
  items.filterMap fun item =>
    if item.kind = "file" ∧
        ((SUPPORTED_IMAGE_TYPES.contains item.type = true ∧
            ¬(item.type = "image/avif" ∧ docsHost = true)) ∨
          (strEnds item.file.name ".heif" || strEnds item.file.name ".heic") = true)
    then some item.file else none

/-- Modelled from the claim words, for comparison with the code: the
output name is the input name with its extension, i.e. the part after
the last dot, replaced by `.png`; a name without a dot keeps its whole
stem and gains the `.png` extension. -/
def specRenamePng (name : String) : String :=
  let rev := name.data.reverse
  let ext := rev.takeWhile fun c => c ≠ '.'
  if (rev.drop ext.length).head? = some '.' then
    String.mk ((rev.drop (ext.length + 1)).reverse ++ ".png".data)
  else name ++ ".png"

/-! Concrete fixtures used by the closed evidence theorems and the
witnesses. -/

/-- Environment whose conversions all succeed, decoding every image at
4 by 5 pixels. -/
def envGood : Env :=
  { readFile := fun f => Except.ok ("data:" ++ f.name)
    loadImage := fun _ => Except.ok { width := 4, height := 5 }
    sched := [0] }

/-- Environment whose file reads all fail. -/
def envBadRead : Env :=
  { readFile := fun _ => Except.error "read failure"
    loadImage := fun _ => Except.ok { width := 4, height := 5 }
    sched := [0, 1, 2] }

/-- Document context on the Google-Docs surface. -/
def docDocs : DocCtx :=
  { href := "https://docs.google.com/document/d/abc"
    elementFromPoint := fun _ _ => some 7
    activeElement := some 5 }

/-- Document context away from the Google-Docs surface. -/
def docPlain : DocCtx :=
  { href := "https://example.com/editor"
    elementFromPoint := fun _ _ => some 7
    activeElement := some 5 }

def pngItem : Item :=
  { kind := "file", type := "image/png"
    file := { name := "photo.png", type := "image/png", contents := "PNGDATA" } }

def webpItem : Item :=
  { kind := "file", type := "image/webp"
    file := { name := "photo.webp", type := "image/webp", contents := "RIFF" } }

def bmpItem : Item :=
  { kind := "file", type := "image/bmp"
    file := { name := "b.bmp", type := "image/bmp", contents := "BM" } }

def svgItem : Item :=
  { kind := "file", type := "image/svg+xml"
    file := { name := "c.svg", type := "image/svg+xml", contents := "<svg/>" } }

def dropEventWith (items : List Item) : EventIn :=
  { type := "drop", isTrusted := true
    dataTransfer := some { items := items, dropEffect := "copy", effectAllowed := "all" }
    clipboardData := none
    clientX := 3, clientY := 4, screenX := 5, screenY := 6
    sourceCapabilities := 1, target := 2, srcElement := 2, currentTarget := 9 }

/-- A trusted drop event whose only item is a natively supported PNG. -/
def pngDropEvent : EventIn := dropEventWith [pngItem]

/-- A trusted drop event with one convertible WebP item next to a PNG. -/
def webpDropEvent : EventIn := dropEventWith [webpItem, pngItem]

/-- A trusted drop event with a three-item convertible batch. -/
def batchDropEvent : EventIn := dropEventWith [webpItem, bmpItem, svgItem]

/-! Claim C1.  The spec says an event with no convertible candidate
suffers no side effects at all.  The code disagrees:
`filterSupportedImages` ends with an unconditional
`event.preventDefault()`, executed even when the candidate list comes
back empty, so the host's native handling of supported types is
suppressed.  The readme relies on PNG/GIF/JPEG inserting natively, and
both earlier revisions kept in the repository guard the call with
`if (imageFiles.length === 0)`, so the claim states the intent and the
current code slips. -/

/-- C1: on a trusted drop whose only item is a PNG (no convertible
candidate), the handler still suppresses the default action — the trace
is exactly `[preventDefault]` — though, as the claim also says, no
synthesized event is dispatched. -/
theorem png_only_drop_trace :
    handleEvent envGood docPlain pngDropEvent = [Effect.preventDefault] ∧
    ∀ ne t, Effect.dispatch ne t ∉ handleEvent envGood docPlain pngDropEvent := by
  have h : handleEvent envGood docPlain pngDropEvent = [Effect.preventDefault] := by decide
  refine ⟨h, ?_⟩
  intro ne t hmem
  rw [h] at hmem
  simp at hmem

/-! Claim C5.  Untrusted events are rejected on the handler's first line,
and a script-dispatched event is untrusted by the DOM, so the system's
own output can never re-enter the pipeline. -/

/-- C5: an event with `isTrusted` false produces an empty effect trace
(no state change), and in particular any synthesized event, re-entering
the handler as the untrusted event the DOM makes of it, is rejected the
same way — no secondary interception, no loop. -/
theorem untrusted_and_synthesized_rejected (env : Env) (doc : DocCtx) :
    (∀ ev : EventIn, ev.isTrusted = false → handleEvent env doc ev = []) ∧
    ∀ ne : NewEvent, handleEvent env doc (toEventIn ne) = [] := by
  constructor
  · intro ev h
    unfold handleEvent
    rw [if_pos h]
  · intro ne
    rfl

def untrustedDropEvent : EventIn :=
  { pngDropEvent with isTrusted := false }

def synthEvent : NewEvent :=
  createNewPasteEvent { files := [], dropEffect := "none", effectAllowed := "none" }
    pngDropEvent

/-- Witness for C5 at concrete inputs. -/
theorem untrusted_and_synthesized_rejected_witness :
    handleEvent envGood docPlain untrustedDropEvent = [] ∧
    handleEvent envGood docPlain (toEventIn synthEvent) = [] :=
  ⟨(untrusted_and_synthesized_rejected envGood docPlain).1 untrustedDropEvent rfl,
    (untrusted_and_synthesized_rejected envGood docPlain).2 synthEvent⟩

/-! Claim C7: field-by-field contract of the event synthesizer. -/

/-- C7: for any assembled payload and original event, the synthesized
drop event keeps the kind, bubbles, is cancelable, copies the four
coordinates and the capability hint, carries the new payload with the
transfer-effect fields copied from the original payload, and has its
target and srcElement forced to the original's; the synthesized paste
event keeps the kind, bubbles, is cancelable, is composed, carries the
new payload as clipboard data with effects reset to none/uninitialized,
and forces the same identity fields. -/
theorem createNewEvent_properties (dt : DTOut) (o : EventIn) :
    (∀ odt, o.type = "drop" → o.dataTransfer = some odt →
      ∃ ne, createNewEvent dt o = some ne ∧ ne.type = "drop" ∧
        ne.bubbles = true ∧ ne.cancelable = true ∧
        ne.clientX = o.clientX ∧ ne.clientY = o.clientY ∧
        ne.screenX = o.screenX ∧ ne.screenY = o.screenY ∧
        ne.sourceCapabilities = some o.sourceCapabilities ∧
        ne.dataTransfer = some
          { files := dt.files, dropEffect := odt.dropEffect
            effectAllowed := odt.effectAllowed } ∧
        ne.target = o.target ∧ ne.srcElement = o.srcElement) ∧
    (o.type = "paste" →
      ∃ ne, createNewEvent dt o = some ne ∧ ne.type = "paste" ∧
        ne.bubbles = true ∧ ne.cancelable = true ∧ ne.composed = true ∧
        ne.clipboardData = some
          { files := dt.files, dropEffect := "none"
            effectAllowed := "uninitialized" } ∧
        ne.target = o.target ∧ ne.srcElement = o.srcElement) := by
  constructor
  · intro odt hty hdt
    have h : createNewEvent dt o = some
        { type := "drop", bubbles := true, cancelable := true, composed := false
          clientX := o.clientX, clientY := o.clientY
          screenX := o.screenX, screenY := o.screenY
          dataTransfer := some
            { files := dt.files, dropEffect := odt.dropEffect
              effectAllowed := odt.effectAllowed }
          clipboardData := none
          sourceCapabilities := some o.sourceCapabilities
          target := o.target, srcElement := o.srcElement
          currentTarget := none } := by
      unfold createNewEvent createNewDropEvent
      rw [if_pos hty, hdt]
      rfl
    exact ⟨_, h, rfl, rfl, rfl, rfl, rfl, rfl, rfl, rfl, rfl, rfl, rfl⟩
  · intro hty
    have hnd : ¬o.type = "drop" := by rw [hty]; decide
    have h : createNewEvent dt o = some (createNewPasteEvent dt o) := by
      unfold createNewEvent
      rw [if_neg hnd, if_pos hty]
    exact ⟨_, h, rfl, rfl, rfl, rfl, rfl, rfl, rfl⟩

/-- Witness for C7 at concrete inputs. -/
theorem createNewEvent_properties_witness :
    (∃ ne, createNewEvent { files := [], dropEffect := "none", effectAllowed := "none" }
        pngDropEvent = some ne ∧ ne.type = "drop" ∧
      ne.bubbles = true ∧ ne.cancelable = true ∧
      ne.clientX = pngDropEvent.clientX ∧ ne.clientY = pngDropEvent.clientY ∧
      ne.screenX = pngDropEvent.screenX ∧ ne.screenY = pngDropEvent.screenY ∧
      ne.sourceCapabilities = some pngDropEvent.sourceCapabilities ∧
      ne.dataTransfer = some
        { files := [], dropEffect := "copy", effectAllowed := "all" } ∧
      ne.target = pngDropEvent.target ∧ ne.srcElement = pngDropEvent.srcElement) :=
  (createNewEvent_properties
      { files := [], dropEffect := "none", effectAllowed := "none" } pngDropEvent).1
    { items := [pngItem], dropEffect := "copy", effectAllowed := "all" } rfl rfl

/-! Claim C8: dispatch-time target resolution. -/

/-- C8: the target is resolved from the document state at dispatch time —
hit testing at the synthesized event's client coordinates for drop
events (coordinates equal to the original's by construction), the
focused element for paste events — and when resolution fails the cycle
ends in a console diagnostic with no dispatch. -/
theorem dispatch_target_resolution (doc : DocCtx) (e : NewEvent) :
    (e.type = "drop" → getTargetElement doc e = doc.elementFromPoint e.clientX e.clientY) ∧
    (e.type = "paste" → getTargetElement doc e = doc.activeElement) ∧
    (getTargetElement doc e = none → dispatchNewEvent doc e = [Effect.consoleError]) ∧
    (∀ t, getTargetElement doc e = some t → dispatchNewEvent doc e = [Effect.dispatch e t]) ∧
    ∀ dtr o ne, createNewDropEvent dtr o = some ne →
      ne.clientX = o.clientX ∧ ne.clientY = o.clientY := by
  refine ⟨?_, ?_, ?_, ?_, ?_⟩
  · intro h
    unfold getTargetElement
    rw [if_pos h]
  · intro h
    have hnd : ¬e.type = "drop" := by rw [h]; decide
    unfold getTargetElement
    rw [if_neg hnd, if_pos h]
  · intro h
    unfold dispatchNewEvent
    rw [h]
  · intro t h
    unfold dispatchNewEvent
    rw [h]
  · intro dtr o ne h
    cases hdt : o.dataTransfer with
    | none => rw [createNewDropEvent, hdt] at h; simp at h
    | some odt =>
      rw [createNewDropEvent, hdt] at h
      injection h with h2
      rw [← h2]
      exact ⟨rfl, rfl⟩

/-- Witness for C8 at concrete inputs. -/
theorem dispatch_target_resolution_witness :
    getTargetElement docPlain synthEvent = docPlain.activeElement ∧
    dispatchNewEvent docPlain synthEvent = [Effect.dispatch synthEvent 5] :=
  ⟨(dispatch_target_resolution docPlain synthEvent).2.1 rfl,
    (dispatch_target_resolution docPlain synthEvent).2.2.2.1 5 (by decide)⟩

/-! Claim C10: the transcoder re-encodes at the decoded image's intrinsic
dimensions.  Decoding is the browser capability the spec treats as
opaque; its output dimensions are the source's intrinsic pixel
dimensions (the image element is never rendered, so its width/height are
the intrinsic ones). -/

/-- C10: whenever the file read and the image decode succeed, the
transcoder output is a PNG-typed blob encoded from a canvas allocated at
exactly the decoded image's width and height. -/
theorem transcode_png_dimensions (env : Env) (f : JFile) (url : String) (img : Img)
    (hread : env.readFile f = Except.ok url)
    (hload : env.loadImage url = Except.ok img) :
    ∃ c, processFile env f = Except.ok c ∧ c.blob.type = "image/png" ∧
      c.blob.width = img.width ∧ c.blob.height = img.height := by
  have h : processFile env f = Except.ok
      { name := jsReplaceExtPng f.name, type := "image/png"
        blob := convertImage2PNGBlob img } := by
    unfold processFile
    simp only [hread, hload]
  exact ⟨_, h, rfl, rfl, rfl⟩

/-- Witness for C10 at concrete inputs. -/
theorem transcode_png_dimensions_witness :
    ∃ c, processFile envGood webpItem.file = Except.ok c ∧ c.blob.type = "image/png" ∧
      c.blob.width = 4 ∧ c.blob.height = 5 :=
  transcode_png_dimensions envGood webpItem.file "data:photo.webp"
    { width := 4, height := 5 } rfl rfl

/-- Every effect emitted by the dispatcher is either a console
diagnostic or a dispatch. -/
theorem mem_dispatchNewEvent_cases (doc : DocCtx) (ne : NewEvent) (e : Effect)
    (h : e ∈ dispatchNewEvent doc ne) :
    e = Effect.consoleError ∨ ∃ ne t, e = Effect.dispatch ne t := by
  unfold dispatchNewEvent at h
  cases ht : getTargetElement doc ne with
  | none =>
    rw [ht] at h
    simp at h
    exact Or.inl h
  | some t =>
    rw [ht] at h
    simp at h
    exact Or.inr ⟨ne, t, h⟩

/-- Every effect emitted by the synthesize-and-dispatch tail is either a
console diagnostic or a dispatch. -/
theorem mem_triggerEvent_cases (doc : DocCtx) (dt : DTOut) (ev : EventIn) (e : Effect)
    (h : e ∈ triggerEvent doc dt ev) :
    e = Effect.consoleError ∨ ∃ ne t, e = Effect.dispatch ne t := by
  unfold triggerEvent at h
  cases hc : createNewEvent dt ev with
  | none =>
    rw [hc] at h
    simp at h
    exact Or.inl h
  | some ne =>
    rw [hc] at h
    exact mem_dispatchNewEvent_cases doc ne e h

/-- Shape of the handler trace once the guards pass and the candidate
list is non-empty. -/
theorem handleEvent_eq_of_candidates (env : Env) (doc : DocCtx) (ev : EventIn)
    (items : List Item)
    (htrust : ev.isTrusted = true)
    (hitems : getEventItems ev = some items)
    (hne : filterSupportedImages doc items ≠ []) :
    handleEvent env doc ev =
      Effect.preventDefault ::
        (asyncFx (filterSupportedImages doc items) ++
          match convertDataTransferSched env (filterSupportedImages doc items) env.sched with
          | Except.error _ => [Effect.consoleError]
          | Except.ok converted =>
            triggerEvent doc
              { files := converted, dropEffect := "none", effectAllowed := "none" }
              ev) := by
  have htrust2 : ¬ev.isTrusted = false := by rw [htrust]; decide
  have hguard : ¬(ev.type = "paste" ∧ ev.clipboardData = none) := by
    rintro ⟨hp, hc⟩
    rw [getEventItems, if_neg (by rw [hp]; decide), if_pos hp, hc] at hitems
    simp at hitems
  have hempty : (filterSupportedImages doc items).isEmpty = false := by
    cases hl : filterSupportedImages doc items with
    | nil => exact absurd hl hne
    | cons a l => rfl
  unfold handleEvent
  rw [if_neg htrust2, if_neg hguard, hitems]
  simp only [hempty]
  rw [if_neg (by decide : ¬false = true)]

/-! Claim C2: with a non-empty candidate set, the default action is
suppressed exactly once, and before any asynchronous work of the
pipeline starts. -/

/-- C2: when the event is trusted, its items are retrievable, and the
filter yields at least one candidate, the trace is `preventDefault`
followed by a remainder that contains no further `preventDefault` — the
suppression happens exactly once and precedes every asynchronous
suspension point and the dispatch. -/
theorem preventDefault_once_first (env : Env) (doc : DocCtx) (ev : EventIn)
    (items : List Item)
    (htrust : ev.isTrusted = true)
    (hitems : getEventItems ev = some items)
    (hne : filterSupportedImages doc items ≠ []) :
    ∃ rest, handleEvent env doc ev = Effect.preventDefault :: rest ∧
      Effect.preventDefault ∉ rest := by
  rw [handleEvent_eq_of_candidates env doc ev items htrust hitems hne]
  refine ⟨_, rfl, ?_⟩
  intro hmem
  rcases List.mem_append.1 hmem with h | h
  · unfold asyncFx at h
    rcases List.mem_map.1 h with ⟨f, _, hf⟩
    exact Effect.noConfusion hf
  · cases hconv : convertDataTransferSched env (filterSupportedImages doc items) env.sched with
    | error e =>
      rw [hconv] at h
      simp at h
    | ok converted =>
      rw [hconv] at h
      rcases mem_triggerEvent_cases doc _ ev _ h with h1 | ⟨ne, t, h1⟩
      · exact Effect.noConfusion h1
      · exact Effect.noConfusion h1

/-- Witness for C2 at concrete inputs. -/
theorem preventDefault_once_first_witness :
    getEventItems webpDropEvent = some [webpItem, pngItem] ∧
    filterSupportedImages docPlain [webpItem, pngItem] ≠ [] ∧
    ∃ rest, handleEvent envGood docPlain webpDropEvent = Effect.preventDefault :: rest ∧
      Effect.preventDefault ∉ rest :=
  ⟨rfl, by decide,
    preventDefault_once_first envGood docPlain webpDropEvent [webpItem, pngItem]
      rfl rfl (by decide)⟩

/-! Claim C3: a failing conversion aborts the whole batch with only a
console diagnostic and no dispatch. -/

/-- C3: when the awaited conversion of the candidate batch rejects, the
trace ends in a single console diagnostic right after the suspension
markers — no synthesized event is dispatched, so nothing from the batch
is inserted. -/
theorem conversion_failure_aborts (env : Env) (doc : DocCtx) (ev : EventIn)
    (items : List Item) (err : String)
    (htrust : ev.isTrusted = true)
    (hitems : getEventItems ev = some items)
    (hne : filterSupportedImages doc items ≠ [])
    (hfail : convertDataTransferSched env (filterSupportedImages doc items) env.sched =
      Except.error err) :
    handleEvent env doc ev =
      Effect.preventDefault ::
        (asyncFx (filterSupportedImages doc items) ++ [Effect.consoleError]) ∧
    ∀ ne t, Effect.dispatch ne t ∉ handleEvent env doc ev := by
  have heq := handleEvent_eq_of_candidates env doc ev items htrust hitems hne
  rw [hfail] at heq
  refine ⟨heq, ?_⟩
  intro ne t hmem
  rw [heq] at hmem
  rcases List.mem_cons.1 hmem with h | h
  · exact Effect.noConfusion h
  · rcases List.mem_append.1 h with h2 | h2
    · unfold asyncFx at h2
      rcases List.mem_map.1 h2 with ⟨f, _, hf⟩
      exact Effect.noConfusion hf
    · exact Effect.noConfusion (List.mem_singleton.1 h2)

/-- Witness for C3: a three-item batch whose reads all fail. -/
theorem conversion_failure_aborts_witness :
    filterSupportedImages docPlain [webpItem, bmpItem, svgItem] ≠ [] ∧
    convertDataTransferSched envBadRead
      (filterSupportedImages docPlain [webpItem, bmpItem, svgItem]) envBadRead.sched =
      Except.error "read failure" ∧
    handleEvent envBadRead docPlain batchDropEvent =
      Effect.preventDefault ::
        (asyncFx (filterSupportedImages docPlain [webpItem, bmpItem, svgItem]) ++
          [Effect.consoleError]) :=
  ⟨by decide, by decide,
    (conversion_failure_aborts envBadRead docPlain batchDropEvent
      [webpItem, bmpItem, svgItem] "read failure" rfl rfl (by decide) (by decide)).1⟩

/-! Claim C4: Promise.all assembles the batch output in input order. -/

/-- Value of a successful conversion, with a default for the impossible
failing case. -/
def processFileD (env : Env) (file : JFile) : ConvertedFile :=
  match processFile env file with
  | Except.ok c => c
  | Except.error _ => default

/-- With an all-successful batch, reading the slots back in index order
yields exactly the per-file conversion results. -/
theorem filterMap_toOption_eq_map (env : Env) : ∀ files : List JFile,
    (∀ f ∈ files, (processFile env f).isOk = true) →
    (files.map (processFile env)).filterMap Except.toOption =
      files.map (processFileD env) := by
  intro files
  induction files with
  | nil => intro _; rfl
  | cons f fs ih =>
    intro hok
    have h1 := hok f (by simp)
    cases hpf : processFile env f with
    | error e =>
      rw [hpf] at h1
      exact Bool.noConfusion h1
    | ok c =>
      have hto : Except.toOption (processFile env f) = some c := by rw [hpf]; rfl
      have hd : processFileD env f = c := by unfold processFileD; rw [hpf]
      simp only [List.map_cons, List.filterMap_cons, hto, hd]
      rw [ih (fun g hg => hok g (by simp [hg]))]

/-- C4: for any completion order of the batch (any permutation of the
task indices), as long as every per-file conversion succeeds, the
assembled payload is exactly the conversions of the input files in input
position order — the result does not depend on the completion order. -/
theorem promiseAll_preserves_input_order (env : Env) (files : List JFile)
    (order : List Nat)
    (hperm : order.Perm (List.range files.length))
    (hok : ∀ f ∈ files, (processFile env f).isOk = true) :
    convertDataTransferSched env files order =
      Except.ok (files.map (processFileD env)) := by
  unfold convertDataTransferSched promiseAllSched
  have hfind : (List.findSome?
      (fun i =>
        match (files.map (processFile env)).get? i with
        | some (Except.error e) => some e
        | _ => none) order) = none := by
    rw [List.findSome?_eq_none_iff]
    intro i hi
    have hilt : i < files.length := List.mem_range.1 (hperm.mem_iff.1 hi)
    cases hf : files.get? i with
    | none =>
      rw [List.get?_eq_none] at hf
      omega
    | some f =>
      have hfo := hok f (List.get?_mem hf)
      rw [List.get?_map, hf, Option.map_some']
      cases hpf : processFile env f with
      | error e =>
        rw [hpf] at hfo
        exact Bool.noConfusion hfo
      | ok c => rfl
  rw [hfind]
  rw [filterMap_toOption_eq_map env files hok]

/-- Witness for C4: a two-file batch completing in reversed order. -/
theorem promiseAll_preserves_input_order_witness :
    [1, 0].Perm (List.range [webpItem.file, bmpItem.file].length) ∧
    convertDataTransferSched envGood [webpItem.file, bmpItem.file] [1, 0] =
      Except.ok ([webpItem.file, bmpItem.file].map (processFileD envGood)) :=
  ⟨by decide,
    promiseAll_preserves_input_order envGood [webpItem.file, bmpItem.file] [1, 0]
      (by decide) (by decide)⟩

/-! Claim C6.  The main classifier of `src/content/content.js` matches
the claim exactly, but the experimental classifier of `src/content.js`
(the file the claim cites for the HEIF path) also lists `image/heif` and
`image/heic` among the supported declared types, so a file-kind item
with declared type `image/heif` is a candidate even when its name does
not end in `.heif`/`.heic` — the claim's candidate set misses it. -/

def heifItem : Item :=
  { kind := "file", type := "image/heif"
    file := { name := "photo.raw", type := "image/heif", contents := "HEIF" } }

/-- C6 counterexample: a file-kind item with declared type `image/heif`
and name `photo.raw` is classified as a candidate by the experimental
classifier, while the candidate set the claim describes is empty on the
same input. -/
theorem exp_classifier_counterexample :
    Exp.filterLoop false [heifItem] = Except.ok [heifItem.file] ∧
    claimCandidates false [heifItem] = [] ∧
    Exp.filterLoop false [heifItem] ≠ Except.ok (claimCandidates false [heifItem]) := by
  refine ⟨by decide, by decide, ?_⟩
  intro h
  rw [show claimCandidates false [heifItem] = [] from by decide] at h
  exact absurd h (by decide)

/-- The push-loop of the main classifier, started from any accumulator,
appends exactly the filtered sublist. -/
theorem filterSupportedImages_foldl (doc : DocCtx) : ∀ (items : List Item)
    (acc : List JFile),
    items.foldl
      (fun acc item =>
        if item.kind = "file" ∧ SUPPORTED_IMAGE_TYPES.contains item.type = true ∧
            shouldSkipFile doc item.type = false then
          acc ++ [item.file]
        else acc) acc =
      acc ++ items.filterMap (fun item =>
        if item.kind = "file" ∧ SUPPORTED_IMAGE_TYPES.contains item.type = true ∧
            shouldSkipFile doc item.type = false then
          some item.file
        else none) := by
  intro items
  induction items with
  | nil => intro acc; simp
  | cons it rest ih =>
    intro acc
    by_cases h : it.kind = "file" ∧ SUPPORTED_IMAGE_TYPES.contains it.type = true ∧
        shouldSkipFile doc it.type = false
    · simp only [List.foldl_cons, List.filterMap_cons, if_pos h]
      rw [ih]
      simp [List.append_assoc]
    · simp only [List.foldl_cons, List.filterMap_cons, if_neg h]
      exact ih acc

/-- C6 amended: the main classifier's candidate set is exactly the
ordered sublist of file-kind items with a declared type among the four
supported ones, minus AVIF on the Google-Docs surface; the experimental
classifier (on item lists of file-kind items — any other item makes that
handler throw) additionally accepts the two HEIF declared types in its
supported list, with the suffix fallback applying only to items that
fail the declared-type test. -/
theorem classifier_characterization :
    (∀ (doc : DocCtx) (items : List Item),
      filterSupportedImages doc items =
        items.filterMap fun item =>
          if item.kind = "file" ∧ SUPPORTED_IMAGE_TYPES.contains item.type = true ∧
              shouldSkipFile doc item.type = false then
            some item.file
          else none) ∧
    (∀ (docsHost : Bool) (items : List Item), (∀ item ∈ items, item.kind = "file") →
      Exp.filterLoop docsHost items =
        Except.ok (items.filterMap fun item =>
          if Exp.supportedImageTypes.contains item.type = true then
            if item.type = "image/avif" ∧ docsHost = true then none else some item.file
          else if Exp.heifName item.file = true then some item.file
          else none)) := by
  constructor
  · intro doc items
    exact filterSupportedImages_foldl doc items []
  · intro docsHost items
    induction items with
    | nil => intro _; rfl
    | cons it rest ih =>
      intro hk
      have hkf : it.kind = "file" := hk it (by simp)
      have hrest : ∀ x ∈ rest, x.kind = "file" := fun x hx => hk x (by simp [hx])
      have hga : getAsFile it = some it.file := by
        unfold getAsFile
        rw [if_pos hkf]
      have step : Exp.filterLoop docsHost (it :: rest) =
          if it.kind = "file" ∧ Exp.supportedImageTypes.contains it.type = true then
            if it.type = "image/avif" ∧ docsHost = true then Exp.filterLoop docsHost rest
            else Except.map (fun l => it.file :: l) (Exp.filterLoop docsHost rest)
          else if Exp.heifName it.file = true then
            Except.map (fun l => it.file :: l) (Exp.filterLoop docsHost rest)
          else Exp.filterLoop docsHost rest := by
        rw [Exp.filterLoop, hga]
      rw [step]
      by_cases h1 : Exp.supportedImageTypes.contains it.type = true
      · rw [if_pos ⟨hkf, h1⟩]
        by_cases h2 : it.type = "image/avif" ∧ docsHost = true
        · rw [if_pos h2, ih hrest]
          simp only [List.filterMap_cons, if_pos h1, if_pos h2]
        · rw [if_neg h2, ih hrest]
          simp only [List.filterMap_cons, if_pos h1, if_neg h2, Except.map]
      · rw [if_neg (fun hc => h1 hc.2)]
        by_cases h3 : Exp.heifName it.file = true
        · rw [if_pos h3, ih hrest]
          simp only [List.filterMap_cons, if_neg h1, if_pos h3, Except.map]
        · rw [if_neg h3, ih hrest]
          simp only [List.filterMap_cons, if_neg h1, if_neg h3]

/-- Witness for C6 amended at concrete inputs. -/
theorem classifier_characterization_witness :
    filterSupportedImages docPlain [webpItem, pngItem] =
      ([webpItem, pngItem].filterMap fun item =>
        if item.kind = "file" ∧ SUPPORTED_IMAGE_TYPES.contains item.type = true ∧
            shouldSkipFile docPlain item.type = false then
          some item.file
        else none) ∧
    (∀ item ∈ [heifItem, webpItem], item.kind = "file") ∧
    Exp.filterLoop false [heifItem, webpItem] =
      Except.ok ([heifItem, webpItem].filterMap fun item =>
        if Exp.supportedImageTypes.contains item.type = true then
          if item.type = "image/avif" ∧ false = true then none else some item.file
        else if Exp.heifName item.file = true then some item.file
        else none) :=
  ⟨classifier_characterization.1 docPlain [webpItem, pngItem],
    by decide,
    classifier_characterization.2 false [heifItem, webpItem] (by decide)⟩

/-! Claim C9.  Every converted file is PNG-typed, but the renaming regex
`/\.\w+$/` only rewrites a trailing dot-plus-word-characters run, so a
name whose last extension contains a non-word character (or a name with
no extension) passes through unchanged instead of having its extension
replaced. -/

def tarFile : JFile :=
  { name := "archive.tar-gz", type := "image/webp", contents := "RIFF" }

/-- C9 counterexample: the input name `archive.tar-gz` has extension
`tar-gz` after its last dot, so the claim requires the output name
`archive.png`; the code leaves the name `archive.tar-gz` because `-` is
not a word character and the regex does not match. -/
theorem rename_counterexample :
    (processFile envGood tarFile).map ConvertedFile.name = Except.ok "archive.tar-gz" ∧
    specRenamePng tarFile.name = "archive.png" ∧
    (processFile envGood tarFile).map ConvertedFile.name ≠
      Except.ok (specRenamePng tarFile.name) := by
  refine ⟨by decide, by decide, ?_⟩
  intro h
  rw [show specRenamePng tarFile.name = "archive.png" from by decide] at h
  exact absurd h (by decide)

/-- A block of characters all satisfying the predicate passes through
`takeWhile` into the continuation. -/
theorem takeWhile_all_append (p : Char → Bool) : ∀ l₁ l₂ : List Char,
    (∀ a ∈ l₁, p a = true) → (l₁ ++ l₂).takeWhile p = l₁ ++ l₂.takeWhile p := by
  intro l₁
  induction l₁ with
  | nil => intro l₂ _; rfl
  | cons a as ih =>
    intro l₂ h
    have pa : p a = true := h a (by simp)
    rw [List.cons_append, List.takeWhile_cons, if_pos pa,
      ih l₂ (fun x hx => h x (by simp [hx]))]
    rfl

/-- On a name of shape `stem.ext` with a nonempty all-word-character
extension, the regex model rewrites exactly that extension to png. -/
theorem jsReplaceExtPngList_ext (stem ext : List Char) (hne : ext ≠ [])
    (hw : ∀ c ∈ ext, isWordChar c = true) :
    jsReplaceExtPngList (stem ++ '.' :: ext) = stem ++ ".png".data := by
  have hrev : (stem ++ '.' :: ext).reverse = ext.reverse ++ '.' :: stem.reverse := by
    simp
  have htw : (ext.reverse ++ '.' :: stem.reverse).takeWhile isWordChar = ext.reverse := by
    rw [takeWhile_all_append isWordChar ext.reverse ('.' :: stem.reverse)
      (fun a ha => hw a (List.mem_reverse.1 ha))]
    rw [List.takeWhile_cons, if_neg (by decide)]
    simp
  have hlen : ext.reverse.length ≠ 0 := by
    rw [List.length_reverse]
    intro h0
    exact hne (List.length_eq_zero.1 h0)
  have hdrop : (ext.reverse ++ '.' :: stem.reverse).drop ext.reverse.length =
      '.' :: stem.reverse :=
    List.drop_left ext.reverse ('.' :: stem.reverse)
  have hdrop1 : (ext.reverse ++ '.' :: stem.reverse).drop (ext.reverse.length + 1) =
      stem.reverse := by
    have h2 : ext.reverse ++ '.' :: stem.reverse = (ext.reverse ++ ['.']) ++ stem.reverse := by
      simp
    have h3 : ext.reverse.length + 1 = (ext.reverse ++ ['.']).length := by simp
    rw [h2, h3]
    exact List.drop_left _ _
  unfold jsReplaceExtPngList
  rw [hrev, htw, hdrop, hdrop1, if_pos ⟨hlen, rfl⟩]
  simp

/-- On a name with no trailing dot-plus-word-characters extension, the
regex model leaves the name unchanged. -/
theorem jsReplaceExtPngList_no_ext (cs : List Char)
    (h : ¬ ∃ stem ext, cs = stem ++ '.' :: ext ∧ ext ≠ [] ∧
      ∀ c ∈ ext, isWordChar c = true) :
    jsReplaceExtPngList cs = cs := by
  unfold jsReplaceExtPngList
  rw [if_neg]
  rintro ⟨hlen, hhead⟩
  apply h
  have hpre : cs.reverse.takeWhile isWordChar <+: cs.reverse :=
    List.takeWhile_prefix isWordChar
  have htake : cs.reverse.take (cs.reverse.takeWhile isWordChar).length =
      cs.reverse.takeWhile isWordChar :=
    (List.prefix_iff_eq_take.1 hpre).symm
  obtain ⟨tail, htail⟩ : ∃ tail,
      cs.reverse.drop (cs.reverse.takeWhile isWordChar).length = '.' :: tail := by
    cases hd : cs.reverse.drop (cs.reverse.takeWhile isWordChar).length with
    | nil =>
      rw [hd] at hhead
      exact absurd hhead (by decide)
    | cons a t =>
      rw [hd] at hhead
      injection hhead with ha
      exact ⟨t, by rw [ha]⟩
  have hcs : cs.reverse = cs.reverse.takeWhile isWordChar ++ '.' :: tail := by
    conv_lhs => rw [← List.take_append_drop (cs.reverse.takeWhile isWordChar).length
      cs.reverse]
    rw [htake, htail]
  refine ⟨tail.reverse, (cs.reverse.takeWhile isWordChar).reverse, ?_, ?_, ?_⟩
  · have hc2 : cs = (cs.reverse.takeWhile isWordChar ++ '.' :: tail).reverse := by
      rw [← hcs, List.reverse_reverse]
    have hc3 : (cs.reverse.takeWhile isWordChar ++ '.' :: tail).reverse =
        tail.reverse ++ '.' :: (cs.reverse.takeWhile isWordChar).reverse := by
      simp
    exact hc2.trans hc3
  · intro h0
    apply hlen
    rw [List.reverse_eq_nil_iff.1 h0]
    rfl
  · intro c hc3
    exact List.mem_takeWhile_imp (List.mem_reverse.1 hc3)

/-- C9 amended: every converted file has MIME type image/png, and its
name is the input name with a trailing dot-plus-word-characters
extension replaced by `.png`; a name with no such trailing extension
(for example one whose final extension holds a non-word character) is
kept unchanged. -/
theorem rename_characterization (env : Env) (f : JFile) (c : ConvertedFile)
    (h : processFile env f = Except.ok c) :
    c.type = "image/png" ∧
    (∀ stem ext, f.name.data = stem ++ '.' :: ext → ext ≠ [] →
      (∀ ch ∈ ext, isWordChar ch = true) → c.name.data = stem ++ ".png".data) ∧
    ((¬ ∃ stem ext, f.name.data = stem ++ '.' :: ext ∧ ext ≠ [] ∧
        ∀ ch ∈ ext, isWordChar ch = true) → c.name = f.name) := by
  have hc : c.name = jsReplaceExtPng f.name ∧ c.type = "image/png" := by
    unfold processFile at h
    cases hr : env.readFile f with
    | error e =>
      rw [hr] at h
      exact Except.noConfusion h
    | ok url =>
      simp only [hr] at h
      cases hl : env.loadImage url with
      | error e =>
        rw [hl] at h
        exact Except.noConfusion h
      | ok img =>
        simp only [hl] at h
        injection h with h2
        rw [← h2]
        exact ⟨rfl, rfl⟩
  refine ⟨hc.2, ?_, ?_⟩
  · intro stem ext hdec hne hw
    rw [hc.1]
    show jsReplaceExtPngList f.name.data = stem ++ ".png".data
    rw [hdec]
    exact jsReplaceExtPngList_ext stem ext hne hw
  · intro hno
    rw [hc.1]
    unfold jsReplaceExtPng
    rw [jsReplaceExtPngList_no_ext f.name.data hno]

/-- The conversion of `photo.webp` under the all-success environment. -/
def convertedPhoto : ConvertedFile :=
  { name := "photo.png", type := "image/png"
    blob := { type := "image/png", width := 4, height := 5 } }

/-- Witness for C9 amended at concrete inputs. -/
theorem rename_characterization_witness :
    convertedPhoto.type = "image/png" ∧
    convertedPhoto.name.data = "photo".data ++ ".png".data :=
  ⟨(rename_characterization envGood webpItem.file convertedPhoto (by decide)).1,
    (rename_characterization envGood webpItem.file convertedPhoto (by decide)).2.1
      "photo".data "webp".data (by decide) (by decide) (by decide)⟩

end EIF
